import Mathlib

/-!
Shallow embedding of the `validating` Go library (RussellLuo/validating),
covering the validator/schema composition engine and its error model:
`Field`, `Validator`, `Errors`, the composite combinators `All`, `Any`
(with its `LastError` mode), `Not`, the `MessageValidator` decorator,
`Schema` aggregation with field-path rewriting (`validateSchema`), and the
leaf validators `Eq`, `Zero`, `ZeroOr` needed by the claims.  The generic
(v3) implementation is embedded from the second file segment of
`src/builtin.go` (lines 619-1282) together with `src/errors.go` and the
`Field`/`Validator` declarations of `src/unnamed/part_004`; the
switch-based non-generic `Nonzero` is embedded from the first segment of
`src/builtin.go` (lines 123-232) with the `ErrUnrecognized` constant of
the matching `errors.go` segment (`src/unnamed/part_013`, second part).

Go `Errors` is a nil-able slice; every validator in the source returns
either `nil` or a non-empty slice, so `Errors` is embedded as `List Error`
with `nil = []`.  Go interface values (`any`) are embedded as the
inductive `GoValue`, restricted to the runtime types the claims exercise
(`int`, `string`, `bool`); a dynamic type assertion `field.Value.(T)`
becomes `typeAssert`.
-/

set_option maxRecDepth 4096

namespace Validating

/-- Go runtime types used as instantiations of the generic type
parameter `T` of the v3 validators. -/
inductive GoType where
  | int : GoType
  | string : GoType
  | bool : GoType
deriving DecidableEq

/-- A Go interface value (`any`), restricted to the runtime types the
claims exercise. -/
inductive GoValue where
  | int : Int → GoValue
  | str : String → GoValue
  | bool : Bool → GoValue
deriving DecidableEq

/-- The dynamic type of a `GoValue` (what Go's `%T` inspects). -/
def typeOf : GoValue → GoType
  | .int _ => .int
  | .str _ => .string
  | .bool _ => .bool

/-- Rendering of a `GoType` as Go's `%T` verb renders it. -/
def goTypeName : GoType → String
  | .int => "int"
  | .string => "string"
  | .bool => "bool"

/-- The zero value of a Go type (`var zero T`). -/
def zeroValue : GoType → GoValue
  | .int => .int 0
  | .string => .str ""
  | .bool => .bool false

/-- Go's checked type assertion `v, ok := field.Value.(T)`: yields the
value when its dynamic type is `T`, and `none` when the assertion fails. -/
def typeAssert (T : GoType) (v : GoValue) : Option GoValue :=
  if typeOf v = T then some v else none

/-- Embeds `Field` (src/unnamed/part_004): a (Name, Value) pair that
needs to be validated. -/
structure Field where
  Name : String
  Value : GoValue
deriving DecidableEq

/-- Embeds the `Error` data carried by `errorImpl` (src/errors.go:68-72):
a field path, an error kind and a message. -/
structure Error where
  field : String
  kind : String
  message : String
deriving DecidableEq

/-- Embeds `Errors` (src/errors.go:20): an ordered error collection;
Go's nil slice is the empty list. -/
abbrev Errors := List Error

/-- Embeds the `ErrUnsupported` constant (src/errors.go:9). -/
def ErrUnsupported : String := "UNSUPPORTED"

/-- Embeds the `ErrInvalid` constant (src/errors.go:10). -/
def ErrInvalid : String := "INVALID"

/-- Embeds the `ErrUnrecognized` constant of the errors.go segment that
accompanies the switch-based validators (src/unnamed/part_013, second
part). -/
def ErrUnrecognized : String := "UNRECOGNIZED"

/-- Embeds `NewErrors` (src/errors.go:22-24). -/
def NewErrors (field kind message : String) : Errors :=
  [Error.mk field kind message]

/-- Embeds `errorImpl.Error` (src/errors.go:90-96): the canonical string
rendering of one error. -/
def Error.ErrorText (e : Error) : String :=
  let s := e.kind ++ "(" ++ e.message ++ ")"
  if e.field = "" then s else e.field ++ ": " ++ s

/-- Embeds the `Validator` capability (src/unnamed/part_004):
`Validate(field) -> Errors`. -/
abbrev Validator := Field → Errors

/-- Embeds `NewInvalidErrors` (src/errors.go:39-41). -/
def NewInvalidErrors (field : Field) (msg : String) : Errors :=
  NewErrors field.Name ErrInvalid msg

/-- Embeds `NewUnsupportedErrors` (src/errors.go:26-37).  The Go code
renders each `want` witness value with `%T`; here the wanted types are
passed directly and rendered with `goTypeName`, which plays the role of
`%T`. -/
def NewUnsupportedErrors (validatorName : String) (field : Field) (want : List GoType) : Errors :=
  let wantTypes := want.map goTypeName
  let expected := String.intercalate " or " wantTypes
  NewErrors field.Name ErrUnsupported
    (validatorName ++ " expected " ++ expected ++ " but got " ++ goTypeName (typeOf field.Value))

/-- Embeds `All` (src/builtin.go:799-808): runs each sub-validator in
order and returns the first non-nil `Errors`; nil when every
sub-validator returns nil. -/
def All : List Validator → Validator
  | [] => fun _ => []
  | v :: rest => fun field =>
      let errs := v field
      if errs ≠ [] then errs else All rest field

/-- Embeds the `AnyValidator` struct (src/builtin.go:815-818). -/
structure AnyValidator where
  returnLastError : Bool
  validators : List Validator

/-- Embeds `Any` (src/builtin.go:822-824): `returnLastError` starts
false. -/
def Any (validators : List Validator) : AnyValidator :=
  { returnLastError := false, validators := validators }

/-- Embeds `AnyValidator.LastError` (src/builtin.go:828-831). -/
def AnyValidator.LastError (av : AnyValidator) : AnyValidator :=
  { av with returnLastError := true }

/-- The loop of `AnyValidator.Validate` (src/builtin.go:834-850), with
the two mutable accumulators `errs` and `lastErr` passed explicitly;
each iteration overwrites `lastErr` with the current sub-validator's
result and returns nil immediately when that result is nil. -/
def anyLoop (returnLastError : Bool) (field : Field) :
    Errors → Errors → List Validator → Errors
  | errs, lastErr, [] => if returnLastError then lastErr else errs
  | errs, _, v :: rest =>
      let lastErr := v field
      if lastErr = [] then [] else anyLoop returnLastError field (errs ++ lastErr) lastErr rest

/-- Embeds `AnyValidator.Validate` (src/builtin.go:834-850). -/
def AnyValidator.Validate (av : AnyValidator) (field : Field) : Errors :=
  anyLoop av.returnLastError field [] [] av.validators

/-- Embeds the `MessageValidator` struct (src/builtin.go:779-782).  The
Go inner validator is a closure reading `mv.Message` at validation time;
here the inner validator takes the current message explicitly. -/
structure MessageValidator where
  Message : String
  ValidateWith : String → Field → Errors

/-- Embeds `MessageValidator.Msg` (src/builtin.go:785-790): sets the
INVALID error message only when `msg` is non-empty. -/
def MessageValidator.Msg (mv : MessageValidator) (msg : String) : MessageValidator :=
  if msg ≠ "" then { mv with Message := msg } else mv

/-- Embeds `MessageValidator.Validate` (src/builtin.go:793-795):
delegates to the inner validator, which reads the current message. -/
def MessageValidator.Validate (mv : MessageValidator) (field : Field) : Errors :=
  mv.ValidateWith mv.Message field

/-- Embeds `Not` (src/builtin.go:857-877): when the wrapped validator
returns no errors, one INVALID error with the (overridable) message;
otherwise only the errors of kind UNSUPPORTED are retained, exactly as
produced by the wrapped validator. -/
def Not (validator : Validator) : MessageValidator :=
  { Message := "is invalid",
    ValidateWith := fun message field =>
      let errs := validator field
      if errs.length = 0 then NewErrors field.Name ErrInvalid message
      else errs.filter (fun err => err.kind == ErrUnsupported) }

/-- Embeds `Eq` (src/builtin.go:1026-1043), with the generic parameter
`T` passed as a `GoType`.  Renamed `EqVal` because `Eq` is taken by
Lean's core logic. -/
def EqVal (T : GoType) (value : GoValue) : MessageValidator :=
  { Message := "does not equal the given value",
    ValidateWith := fun message field =>
      match typeAssert T field.Value with
      | none => NewUnsupportedErrors "Eq" field [T]
      | some v => if v ≠ value then NewInvalidErrors field message else [] }

/-- Embeds `Zero` (src/builtin.go:924-942), with the generic parameter
`T` passed as a `GoType`.  Renamed `ZeroVal` to avoid Mathlib's `Zero`
class. -/
def ZeroVal (T : GoType) : MessageValidator :=
  { Message := "is nonzero",
    ValidateWith := fun message field =>
      match typeAssert T field.Value with
      | none => NewUnsupportedErrors "Zero" field [T]
      | some v => if v ≠ zeroValue T then NewInvalidErrors field message else [] }

/-- Embeds `ZeroOr` (src/builtin.go:944-950):
`Any(Zero[T](), validator).LastError()`. -/
def ZeroOr (T : GoType) (validator : Validator) : Validator :=
  ((Any [(ZeroVal T).Validate, validator]).LastError).Validate

/-- Embeds the field rewriting performed for each schema entry inside
`validateSchema` (src/builtin.go:1270-1276): when the prefix is
non-empty the child name is joined to it with `"."` unless the child
name is empty, in which case the prefix alone is used; when the prefix
is empty the child field is passed unchanged. -/
def rewriteField (pfx : String) (f : Field) : Field :=
  if pfx ≠ "" then
    { Name := if f.Name ≠ "" then pfx ++ "." ++ f.Name else pfx, Value := f.Value }
  else f

/-- Embeds `Schema` (src/builtin.go:642): a field-to-validator mapping.
The Go map (keyed by `*Field` pointers) is embedded as an association
list; iteration order, unspecified in Go, is the list order. -/
abbrev Schema := List (Field × Validator)

/-- Embeds `validateSchema` (src/builtin.go:1266-1282): for every
(childField, childValidator) entry, the child field is rewritten under
`pfxFunc(field.Name)` and validated, and all resulting errors are
accumulated. -/
def validateSchema : Schema → Field → (String → String) → Errors
  | [], _, _ => []
  | e :: rest, field, pfxFunc =>
      e.2 (rewriteField (pfxFunc field.Name) e.1) ++ validateSchema rest field pfxFunc

/-- Embeds `Schema.Validate` (src/builtin.go:645-647): `validateSchema`
with the identity prefix function. -/
def SchemaValidate (s : Schema) (field : Field) : Errors :=
  validateSchema s field (fun name => name)

/-- The prefix function `EachSlice` passes to `validateSchema`
(src/builtin.go:713-715): the enclosing name extended with `[i]`. -/
def eachSlicePfx (i : Nat) : String → String :=
  fun name => name ++ "[" ++ toString i ++ "]"

/-- The prefix function `EachMap` passes to `validateSchema`
(src/builtin.go:686-688): the enclosing name extended with `[k]`, the
key rendered by `%v`. -/
def eachMapPfx (k : String) : String → String :=
  fun name => name ++ "[" ++ k ++ "]"

/-- A probe validator used to observe the exact field name a schema
entry's validator receives: it reports its field's name verbatim. -/
def probeValidator : Validator :=
  fun field => [Error.mk field.Name "PROBE" ""]

/-- A concrete always-failing validator (one INVALID error "e1"). -/
def wInvalid1 : Validator :=
  fun field => [Error.mk field.Name ErrInvalid "e1"]

/-- A concrete always-failing validator (one INVALID error "e2"). -/
def wInvalid2 : Validator :=
  fun field => [Error.mk field.Name ErrInvalid "e2"]

/-- A concrete always-succeeding validator. -/
def wSucceed : Validator := fun _ => []

/-- A concrete field holding the int value 0. -/
def wField : Field := Field.mk "x" (GoValue.int 0)

/-- A concrete field holding the int value 1. -/
def wFieldInt : Field := Field.mk "v1" (GoValue.int 1)

/-- A concrete field holding the int value 3. -/
def wFieldInt3 : Field := Field.mk "n" (GoValue.int 3)

/-- `Eq[string]("foo")` as a plain validator: on a non-string value it
produces one UNSUPPORTED error whose message names the inner validator
`Eq`. -/
def wUnsupInner : Validator := (EqVal GoType.string (GoValue.str "foo")).Validate

/-- A concrete schema entry whose validator always fails with "m1". -/
def c1EntryA : Field × Validator :=
  (Field.mk "a" (GoValue.int 0), fun field => [Error.mk field.Name ErrInvalid "m1"])

/-- A concrete schema entry whose validator always fails with "m2". -/
def c1EntryB : Field × Validator :=
  (Field.mk "b" (GoValue.int 0), fun field => [Error.mk field.Name ErrInvalid "m2"])

/-- A concrete two-field schema, both fields independently invalid. -/
def c1Schema : Schema := [c1EntryA, c1EntryB]

/-- The anonymous root field used by `Validate` for the concrete schema. -/
def c1Field : Field := Field.mk "" (GoValue.int 0)

end Validating

namespace Validating2

open Validating (Errors Error NewErrors ErrInvalid ErrUnrecognized)

/-- The pointed-to value held by a v2 `Field.ValuePtr`
(src/builtin.go:130-222 lists the pointer types the switch-based
`Nonzero` accepts).  One constructor per modelled switch arm, for the
`int`, `string` and `bool` families (`*T`, `**T`, `*[]T`); the
remaining numeric arms of the Go switch are isomorphic to the `int`
ones and their values are omitted from the universe.  `pFunc` stands
for a pointer to a function value, a type that matches no arm of the
switch and therefore reaches the `default` branch. -/
inductive PtrValue where
  | pInt : Int → PtrValue
  | pIntPtr : Option Int → PtrValue
  | pIntSlice : List Int → PtrValue
  | pString : String → PtrValue
  | pStringPtr : Option String → PtrValue
  | pStringSlice : List String → PtrValue
  | pBool : Bool → PtrValue
  | pBoolPtr : Option Bool → PtrValue
  | pBoolSlice : List Bool → PtrValue
  | pFunc : Unit → PtrValue
deriving DecidableEq

/-- Embeds the v2 `Field` (a name together with a pointer to the value
being validated). -/
structure Field2 where
  Name : String
  ValuePtr : PtrValue
deriving DecidableEq

/-- Embeds the body of the switch-based `Nonzero`
(src/builtin.go:125-232) applied with a given message: each switch arm
computes `valid`; a value whose type matches no arm returns one
UNRECOGNIZED error from the `default` branch; an invalid value yields
one INVALID error carrying the message. -/
def Nonzero2Validate (msg : String) (field : Field2) : Errors :=
  let valid : Option Bool :=
    match field.ValuePtr with
    | .pInt t => some (t ≠ 0)
    | .pIntPtr t => some (t ≠ none)
    | .pIntSlice t => some (t.length ≠ 0)
    | .pString t => some (t ≠ "")
    | .pStringPtr t => some (t ≠ none)
    | .pStringSlice t => some (t.length ≠ 0)
    | .pBool t => some (t ≠ false)
    | .pBoolPtr t => some (t ≠ none)
    | .pBoolSlice t => some (t.length ≠ 0)
    | .pFunc _ => none
  match valid with
  | none => NewErrors field.Name ErrUnrecognized "of unrecognized type"
  | some ok => if ¬ ok then NewErrors field.Name ErrInvalid msg else []

/-- Embeds `Nonzero()` called with no custom messages
(src/builtin.go:125-126): `getMsg` then returns the default message
"is zero valued". -/
def Nonzero2 : Field2 → Errors :=
  Nonzero2Validate "is zero valued"

end Validating2


namespace Validating

/-- `validateSchema` returns the concatenation, over all schema entries
in iteration order, of each child validator's errors on its rewritten
field: no child is skipped and no error is dropped. -/
theorem validateSchema_eq_join (s : Schema) (f : Field) (pfxFunc : String → String) :
    validateSchema s f pfxFunc
      = (s.map (fun e => e.2 (rewriteField (pfxFunc f.Name) e.1))).flatten := by
  induction s with
  | nil => rfl
  | cons e rest ih => simp [validateSchema, ih]

/-- When every listed validator fails, the `anyLoop` in default mode
returns the accumulator followed by the concatenation of all results. -/
theorem anyLoop_all_fail_default (f : Field) (vs : List Validator)
    (h : ∀ v ∈ vs, v f ≠ []) (errs lastErr : Errors) :
    anyLoop false f errs lastErr vs = errs ++ (vs.map (fun v => v f)).flatten := by
  induction vs generalizing errs lastErr with
  | nil => simp [anyLoop]
  | cons v rest ih =>
    have hv : v f ≠ [] := h v (by simp)
    simp only [anyLoop]
    rw [if_neg hv, ih (fun w hw => h w (by simp [hw]))]
    simp

/-- When every listed validator fails, the `anyLoop` in last-error mode
returns the final validator's errors. -/
theorem anyLoop_all_fail_last (f : Field) (vlast : Validator) (vs : List Validator)
    (h : ∀ v ∈ vs ++ [vlast], v f ≠ []) (errs lastErr : Errors) :
    anyLoop true f errs lastErr (vs ++ [vlast]) = vlast f := by
  induction vs generalizing errs lastErr with
  | nil =>
    have hv : vlast f ≠ [] := h vlast (by simp)
    simp only [List.nil_append, anyLoop]
    rw [if_neg hv]
    simp [anyLoop]
  | cons v rest ih =>
    have hv : v f ≠ [] := h v (by simp)
    simp only [List.cons_append, anyLoop]
    rw [if_neg hv]
    exact ih (fun w hw => h w (by simp [hw])) (errs ++ v f) (v f)

/-- As soon as one listed validator succeeds, the `anyLoop` returns nil
in either mode. -/
theorem anyLoop_success (b : Bool) (f : Field) (vs : List Validator)
    (h : ∃ v ∈ vs, v f = []) (errs lastErr : Errors) :
    anyLoop b f errs lastErr vs = [] := by
  induction vs generalizing errs lastErr with
  | nil => simp at h
  | cons v rest ih =>
    by_cases hv : v f = []
    · simp [anyLoop, hv]
    · rcases h with ⟨w, hw, hwf⟩
      rcases List.mem_cons.mp hw with rfl | hwr
      · exact absurd hwf hv
      · simp only [anyLoop]
        rw [if_neg hv, ih ⟨w, hwr, hwf⟩]

/-- C1: `Schema.Validate` evaluates every (childField, childValidator)
entry and returns the accumulated errors of all children — the result is
the concatenation of every child's errors over its rewritten field, and
every error produced by a failing child appears in the result, so no
proper subset of the failing fields is ever reported (a `Schema` never
short-circuits across children). -/
theorem schema_validate_accumulates_all_children (s : Schema) (f : Field) :
    SchemaValidate s f = (s.map (fun e => e.2 (rewriteField f.Name e.1))).flatten ∧
    ∀ e ∈ s, ∀ err ∈ e.2 (rewriteField f.Name e.1), err ∈ SchemaValidate s f := by
  have hj : SchemaValidate s f
      = (s.map (fun e => e.2 (rewriteField f.Name e.1))).flatten :=
    validateSchema_eq_join s f (fun name => name)
  refine ⟨hj, ?_⟩
  intro e he err herr
  rw [hj]
  exact List.mem_flatten.mpr ⟨e.2 (rewriteField f.Name e.1), List.mem_map_of_mem _ he, herr⟩

/-- C1 witness: in a concrete two-field schema whose fields are both
independently invalid, the second field's error is present in the
result (as is the first field's, by symmetry). -/
theorem schema_validate_accumulates_witness :
    Error.mk "b" ErrInvalid "m2" ∈ SchemaValidate c1Schema c1Field :=
  (schema_validate_accumulates_all_children c1Schema c1Field).2 c1EntryB
    (by simp [c1Schema])
    (Error.mk "b" ErrInvalid "m2")
    (by simp [c1EntryB, c1Field, rewriteField])

/-- C2: `All` runs its sub-validators in order and returns the errors of
the first one whose result is non-empty, independently of whatever
validators come after it, and it returns empty exactly when every
sub-validator returns empty.  In particular `All(v1, v2)` with both
failing returns exactly v1's errors. -/
theorem all_short_circuits_on_first_failure :
    (∀ (vs1 vs2 : List Validator) (v : Validator) (f : Field),
      (∀ u ∈ vs1, u f = []) → v f ≠ [] → All (vs1 ++ v :: vs2) f = v f) ∧
    (∀ (vs : List Validator) (f : Field), All vs f = [] ↔ ∀ u ∈ vs, u f = []) := by
  constructor
  · intro vs1 vs2 v f h1 h2
    induction vs1 with
    | nil => simp [All, h2]
    | cons u rest ih =>
      have hu : u f = [] := h1 u (by simp)
      simp only [List.cons_append, All, hu]
      simpa using ih (fun w hw => h1 w (by simp [hw]))
  · intro vs f
    induction vs with
    | nil => simp [All]
    | cons u rest ih =>
      by_cases hu : u f = []
      · simp [All, hu, ih]
      · have hval : All (u :: rest) f = u f := by simp [All, hu]
        rw [hval]
        exact iff_of_false hu (fun hall => hu (hall u (List.mem_cons_self u rest)))

/-- C2 witness: `All(v1, v2)` where both v1 and v2 fail on the field
returns exactly v1's errors. -/
theorem all_short_circuits_witness :
    All ([] ++ wInvalid1 :: [wInvalid2]) wField = wInvalid1 wField :=
  all_short_circuits_on_first_failure.1 [] [wInvalid2] wInvalid1 wField
    (by simp) (by simp [wInvalid1])

/-- C3: when every sub-validator fails, `Any` in default mode returns
the concatenation of every sub-validator's errors in order, while in
`LastError` mode it returns exactly the final sub-validator's errors;
and whenever some sub-validator succeeds the result is empty in either
mode. -/
theorem any_default_concat_lasterror_modes :
    (∀ (vs : List Validator) (vlast : Validator) (f : Field),
      (∀ v ∈ vs ++ [vlast], v f ≠ []) →
      (Any (vs ++ [vlast])).Validate f = ((vs ++ [vlast]).map (fun v => v f)).flatten ∧
      ((Any (vs ++ [vlast])).LastError).Validate f = vlast f) ∧
    (∀ (av : AnyValidator) (f : Field),
      (∃ v ∈ av.validators, v f = []) → av.Validate f = []) := by
  constructor
  · intro vs vlast f h
    constructor
    · simpa using anyLoop_all_fail_default f (vs ++ [vlast]) h [] []
    · exact anyLoop_all_fail_last f vlast vs h [] []
  · intro av f h
    exact anyLoop_success av.returnLastError f av.validators h [] []

/-- C3 witness: `Any(v1, v2)` where both fail: default mode returns the
two error lists concatenated, LastError mode returns exactly v2's
errors. -/
theorem any_modes_witness :
    (Any ([wInvalid1] ++ [wInvalid2])).Validate wField
      = (([wInvalid1] ++ [wInvalid2]).map (fun v => v wField)).flatten ∧
    ((Any ([wInvalid1] ++ [wInvalid2])).LastError).Validate wField = wInvalid2 wField :=
  any_default_concat_lasterror_modes.1 [wInvalid1] wInvalid2 wField
    (by
      intro v hv
      simp only [List.singleton_append, List.mem_cons, List.not_mem_nil, or_false] at hv
      rcases hv with rfl | rfl <;> simp [wInvalid1, wInvalid2])

/-- C4: the name a schema entry's validator receives is the prefix
(the enclosing field name as transformed by the caller's prefix
function, e.g. extended with `[i]` by `EachSlice` or `[k]` by `EachMap`)
joined to the child name with `"."` when both are non-empty; it is the
prefix alone when the child name is empty and the child name unchanged
when the prefix is empty — no separator is inserted when either side is
empty. -/
theorem schema_path_join_no_empty_separator
    (pfxFunc : String → String) (fname c : String) (val cval : GoValue) :
    validateSchema [(Field.mk c cval, probeValidator)] (Field.mk fname val) pfxFunc
      = [Error.mk (if pfxFunc fname = "" then c
                   else if c = "" then pfxFunc fname
                   else pfxFunc fname ++ "." ++ c) "PROBE" ""] := by
  by_cases hp : pfxFunc fname = "" <;> by_cases hc : c = "" <;>
    simp [validateSchema, rewriteField, probeValidator, hp, hc]

/-- C7: the rendered string of an error is
`field ++ ": " ++ kind ++ "(" ++ message ++ ")"` when the field is
non-empty and `kind ++ "(" ++ message ++ ")"` when the field is the
empty string: an anonymous root field's error omits the field-colon
part. -/
theorem error_render_omits_empty_field_colon (f k m : String) :
    (Error.mk f k m).ErrorText
      = (if f = "" then k ++ "(" ++ m ++ ")" else f ++ ": " ++ k ++ "(" ++ m ++ ")") := by
  by_cases hf : f = "" <;> simp [Error.ErrorText, hf, String.append_assoc]

/-- C10: with an empty list of sub-validators, `All` returns no errors,
and `Any` returns no errors in both default mode and `LastError` mode:
the empty conjunction and the empty disjunction both succeed
vacuously. -/
theorem empty_all_any_vacuous_success (f : Field) :
    All [] f = [] ∧ (Any []).Validate f = [] ∧ ((Any []).LastError).Validate f = [] :=
  ⟨rfl, rfl, rfl⟩

/-- C5 counterexample: wrapping `Eq[string]("foo")` in `Not` and
validating an int field, the inner validator's UNSUPPORTED error is
returned verbatim — its message still names the inner validator `Eq` —
and the result is not the error that re-tagging with the outer
validator's name (`NewUnsupportedErrors "Not" ...`) would produce, so
`Not` does not re-tag UNSUPPORTED errors with the outer validator's
name. -/
theorem not_retag_outer_name_counterexample :
    (Not wUnsupInner).Validate (Field.mk "value" (GoValue.int 1))
      = [Error.mk "value" ErrUnsupported "Eq expected string but got int"] ∧
    (Not wUnsupInner).Validate (Field.mk "value" (GoValue.int 1))
      ≠ NewUnsupportedErrors "Not" (Field.mk "value" (GoValue.int 1)) [GoType.string] := by
  constructor
  · decide
  · decide

/-- C5 amended: when the wrapped validator's first error has kind
UNSUPPORTED, `Not` reports that UNSUPPORTED error retained unchanged
from the wrapped validator (hence still tagged with the inner
validator's name, not the outer's), every reported error has kind
UNSUPPORTED (so none is INVALID), and the Unsupported error is never
silently dropped. -/
theorem not_retains_unsupported_unchanged (v : Validator) (f : Field)
    (e : Error) (rest : Errors) (h : v f = e :: rest) (hk : e.kind = ErrUnsupported) :
    e ∈ (Not v).Validate f ∧
    ∀ e2 ∈ (Not v).Validate f, e2.kind = ErrUnsupported ∧ e2 ∈ v f := by
  have hlen : (v f).length ≠ 0 := by rw [h]; simp
  have hval : (Not v).Validate f = (v f).filter (fun err => err.kind == ErrUnsupported) := by
    simp only [Not, MessageValidator.Validate]
    rw [if_neg hlen]
  constructor
  · rw [hval]
    exact List.mem_filter.mpr ⟨by rw [h]; exact List.mem_cons_self e rest, by simp [hk]⟩
  · intro e2 he2
    rw [hval] at he2
    have := List.mem_filter.mp he2
    exact ⟨by simpa using this.2, this.1⟩

/-- C5 amended witness: on a concrete int field, `Not(Eq[string]("foo"))`
keeps the inner UNSUPPORTED error. -/
theorem not_retains_unsupported_witness :
    Error.mk "v1" ErrUnsupported "Eq expected string but got int"
      ∈ (Not wUnsupInner).Validate wFieldInt :=
  (not_retains_unsupported_unchanged wUnsupInner wFieldInt
    (Error.mk "v1" ErrUnsupported "Eq expected string but got int") []
    (by decide) rfl).1

/-- C8: `Msg(s)` on a `MessageValidator` sets the message to `s` when
`s` is non-empty and leaves the default untouched when `s` is empty, and
the INVALID error subsequently produced by the wrapped validator (here
`Not` over a succeeding validator) carries the resulting message. -/
theorem msg_sets_nonempty_message_only (mv : MessageValidator) (s : String)
    (v : Validator) (f : Field) (hv : v f = []) :
    (mv.Msg s).Message = (if s = "" then mv.Message else s) ∧
    ((Not v).Msg s).Validate f
      = NewErrors f.Name ErrInvalid (if s = "" then "is invalid" else s) := by
  constructor
  · by_cases hs : s = "" <;> simp [MessageValidator.Msg, hs]
  · by_cases hs : s = "" <;>
      simp [MessageValidator.Msg, MessageValidator.Validate, Not, hs, hv]

/-- C8 witness: `Not` over a succeeding validator with message override
"custom": the override is stored and the INVALID error carries it. -/
theorem msg_sets_nonempty_witness :
    ((Not wSucceed).Msg "custom").Message
      = (if "custom" = "" then (Not wSucceed).Message else "custom") ∧
    ((Not wSucceed).Msg "custom").Validate wField
      = NewErrors wField.Name ErrInvalid (if "custom" = "" then "is invalid" else "custom") :=
  msg_sets_nonempty_message_only (Not wSucceed) "custom" wSucceed wField rfl

/-- C9: for a field whose value has runtime type `T`, `ZeroOr[T](v)`
returns no errors when the value is `T`'s zero value or when `v`
succeeds, and otherwise returns exactly `v`'s errors — only the last
validator's errors, never the concatenation of `Zero`'s error with
`v`'s — because `ZeroOr` is `Any(Zero[T](), v).LastError()`. -/
theorem zero_or_last_error_semantics (T : GoType) (v : Validator) (f : Field)
    (hT : typeOf f.Value = T) :
    ZeroOr T v f = (if f.Value = zeroValue T ∨ v f = [] then [] else v f) := by
  have hassert : typeAssert T f.Value = some f.Value := by simp [typeAssert, hT]
  simp only [ZeroOr, Any, AnyValidator.LastError, AnyValidator.Validate]
  by_cases hz : f.Value = zeroValue T
  · have h1 : (ZeroVal T).Validate f = [] := by
      simp only [ZeroVal, MessageValidator.Validate]
      rw [hassert]
      simp [hz]
    simp [anyLoop, h1, hz]
  · have h1 : (ZeroVal T).Validate f = NewInvalidErrors f "is nonzero" := by
      simp only [ZeroVal, MessageValidator.Validate]
      rw [hassert]
      simp [hz]
    by_cases hv : v f = []
    · simp [anyLoop, h1, hv, NewInvalidErrors, NewErrors]
    · simp [anyLoop, h1, hv, hz, NewInvalidErrors, NewErrors]

/-- C9 witness: `ZeroOr[int]` of an always-failing validator on the
nonzero int field returns exactly that validator's errors. -/
theorem zero_or_witness :
    ZeroOr GoType.int wInvalid1 wFieldInt3
      = (if wFieldInt3.Value = zeroValue GoType.int ∨ wInvalid1 wFieldInt3 = []
         then [] else wInvalid1 wFieldInt3) :=
  zero_or_last_error_semantics GoType.int wInvalid1 wFieldInt3 rfl

end Validating

namespace Validating2

/-- C6: validating a function value (a runtime type outside those the
switch-based `Nonzero` models) as a field named "value" yields exactly
one error of kind UNRECOGNIZED, which differs from both UNSUPPORTED and
INVALID. -/
theorem nonzero_function_value_unrecognized :
    Nonzero2 (Field2.mk "value" (PtrValue.pFunc ()))
      = [Validating.Error.mk "value" Validating.ErrUnrecognized "of unrecognized type"] ∧
    Validating.ErrUnrecognized ≠ Validating.ErrUnsupported ∧
    Validating.ErrUnrecognized ≠ Validating.ErrInvalid :=
  ⟨rfl, by decide, by decide⟩

end Validating2
